import Mathlib

/-
Verification of the Bitbucket MCP bridge (TypeScript sources: src/config.ts,
src/git.ts, src/bitbucket.ts, src/cli.ts) against its design specification.
The TypeScript functions are shallowly embedded as executable Lean functions:
JavaScript strings become `String`, optional / possibly-undefined values become
`Option`, thrown exceptions become `Except`, and each client method returns the
list of HTTP requests it issues (method, path, JSON body).  JavaScript
truthiness on strings (empty string is falsy) is modelled explicitly.
-/

namespace BitbucketMCP

/-! ## JavaScript string primitives -/

/-- Truthiness of a possibly-undefined JS string: `undefined` and `""` are falsy. -/
def jsTruthy : Option String → Bool
  | none => false
  | some s => !(s == "")

/-- JS `a || b` for a possibly-undefined string `a` with a string default `b`. -/
def jsOr (a : Option String) (b : String) : String :=
  match a with
  | some s => if s == "" then b else s
  | none => b

/-- Does `pat` occur as a contiguous sublist?  Mirrors JS `String.includes`. -/
def listContainsSub (pat : List Char) : List Char → Bool
  | [] => pat.isEmpty
  | c :: rest => pat.isPrefixOf (c :: rest) || listContainsSub pat rest

/-- JS `s.includes(pat)`. -/
def strIncludes (s pat : String) : Bool := listContainsSub pat.data s.data

/-! ## `encodeURIComponent`

JS `encodeURIComponent` leaves `A-Z a-z 0-9 - _ . ! ~ * ' ( )` untouched and
percent-encodes every other character byte-wise in UTF-8 with uppercase hex. -/

def hexUpper (n : Nat) : Char :=
  if n < 10 then Char.ofNat (48 + n) else Char.ofNat (55 + n)

/-- UTF-8 encoding of a Unicode code point, as byte values. -/
def utf8Nat (n : Nat) : List Nat :=
  if n < 128 then [n]
  else if n < 2048 then [192 + n / 64, 128 + n % 64]
  else if n < 65536 then [224 + n / 4096, 128 + (n / 64) % 64, 128 + n % 64]
  else [240 + n / 262144, 128 + (n / 4096) % 64, 128 + (n / 64) % 64, 128 + n % 64]

/-- Bytes left unescaped by `encodeURIComponent`. -/
def uriUnreserved (n : Nat) : Bool :=
  (65 ≤ n && n ≤ 90) || (97 ≤ n && n ≤ 122) || (48 ≤ n && n ≤ 57) ||
  n == 45 || n == 95 || n == 46 || n == 33 || n == 126 || n == 42 ||
  n == 39 || n == 40 || n == 41

def encodeByte (n : Nat) : List Char :=
  if uriUnreserved n then [Char.ofNat n]
  else ['%', hexUpper (n / 16), hexUpper (n % 16)]

def encodeURIComponent (s : String) : String :=
  String.mk (s.data.foldr (fun c acc => ((utf8Nat c.toNat).foldr (fun b a => encodeByte b ++ a) []) ++ acc) [])

/-! ## Dialect detection (src/bitbucket.ts constructor) -/

def cloudMarker : String := "api.bitbucket.org"

def cloudBaseUrl : String := "https://api.bitbucket.org/2.0"

/-- `this.isCloud = this.baseUrl.includes("api.bitbucket.org") || this.baseUrl === "https://api.bitbucket.org/2.0"`,
fixed once in the `BitbucketClient` constructor. -/
def isCloud (baseUrl : String) : Bool :=
  strIncludes baseUrl cloudMarker || baseUrl == cloudBaseUrl

/-! ## HTTP request model -/

/-- JSON values (only the shapes this client builds). -/
inductive JsonVal where
  | str (s : String)
  | num (n : Int)
  | boolean (b : Bool)
  | obj (fields : List (String × JsonVal))

/-- One outbound HTTP request: method, path relative to the base URL, optional JSON body. -/
structure Request where
  method : String
  path : String
  body : Option JsonVal

/-- Shorthand used by every operation below. -/
def enc (s : String) : String := encodeURIComponent s

/-- JS template interpolation of a possibly-undefined number: an undefined
`prId` renders as the literal string `"undefined"` inside the path. -/
def jsShowNum : Option Int → String
  | none => "undefined"
  | some n => toString n

/-- A string field appended to a JSON body only when the option is truthy,
mirroring `if (x) body.k = x`. -/
def optStrField (k : String) : Option String → List (String × JsonVal)
  | some s => if s == "" then [] else [(k, JsonVal.str s)]
  | none => []

/-! ## Repository client operations (src/bitbucket.ts)

Each method is embedded as a function from its arguments to the list of HTTP
requests it issues; every method below issues exactly one. -/

/-- `getRepo`: `GET /repositories/{ws}/{slug}` on Cloud, `GET /projects/{ws}/repos/{slug}` on Server. -/
def getRepo (baseUrl workspace repoSlug : String) : List Request :=
  if isCloud baseUrl then
    [⟨"GET", "/repositories/" ++ enc workspace ++ "/" ++ enc repoSlug, none⟩]
  else
    [⟨"GET", "/projects/" ++ enc workspace ++ "/repos/" ++ enc repoSlug, none⟩]

/-- `compareBranches`: Cloud `GET .../diff/{dest}..{source}`, Server
`GET .../compare/diff?from={source}&to={destination}`. -/
def compareBranches (baseUrl workspace repoSlug source destination : String) : List Request :=
  if isCloud baseUrl then
    [⟨"GET", "/repositories/" ++ enc workspace ++ "/" ++ enc repoSlug ++ "/diff/" ++
        enc destination ++ ".." ++ enc source, none⟩]
  else
    [⟨"GET", "/projects/" ++ enc workspace ++ "/repos/" ++ enc repoSlug ++
        "/compare/diff?from=" ++ enc source ++ "&to=" ++ enc destination, none⟩]

/-- Options object accepted by `mergePullRequest`. -/
structure MergeOptions where
  closeSourceBranch : Option Bool
  mergeStrategy : Option String
  message : Option String

/-- `mergePullRequest`.  Cloud: optional `close_source_branch` / `merge_strategy` /
`message` fields, body omitted when empty.  Server: body `{version: 0, message?}`;
`closeSourceBranch` and `mergeStrategy` are not read on this branch, and no request
fetching the current version is made. -/
def mergePullRequest (baseUrl workspace repoSlug : String) (prId : Option Int)
    (options : MergeOptions) : List Request :=
  if isCloud baseUrl then
    let fields :=
      (match options.closeSourceBranch with
        | some b => [("close_source_branch", JsonVal.boolean b)]
        | none => []) ++
      (match options.mergeStrategy with
        | some s => if s == "" then [] else [("merge_strategy", JsonVal.str s)]
        | none => []) ++
      optStrField "message" options.message
    [⟨"POST", "/repositories/" ++ enc workspace ++ "/" ++ enc repoSlug ++
        "/pullrequests/" ++ jsShowNum prId ++ "/merge",
      if fields.isEmpty then none else some (JsonVal.obj fields)⟩]
  else
    [⟨"POST", "/projects/" ++ enc workspace ++ "/repos/" ++ enc repoSlug ++
        "/pull-requests/" ++ jsShowNum prId ++ "/merge",
      some (JsonVal.obj (("version", JsonVal.num 0) :: optStrField "message" options.message))⟩]

/-- Updates object accepted by `updatePullRequest`. -/
structure UpdateFields where
  title : Option String
  description : Option String

/-- `updatePullRequest`.  Cloud: `PUT` with the provided fields.  Server: `PUT`
with `{version: 0}` plus the provided fields; no read of the current version. -/
def updatePullRequest (baseUrl workspace repoSlug : String) (prId : Option Int)
    (updates : UpdateFields) : List Request :=
  if isCloud baseUrl then
    [⟨"PUT", "/repositories/" ++ enc workspace ++ "/" ++ enc repoSlug ++
        "/pullrequests/" ++ jsShowNum prId,
      some (JsonVal.obj (optStrField "title" updates.title ++
        optStrField "description" updates.description))⟩]
  else
    [⟨"PUT", "/projects/" ++ enc workspace ++ "/repos/" ++ enc repoSlug ++
        "/pull-requests/" ++ jsShowNum prId,
      some (JsonVal.obj (("version", JsonVal.num 0) :: optStrField "title" updates.title ++
        optStrField "description" updates.description))⟩]

/-- `addPullRequestComment`.  The method first logs `text.length`; when `text`
is undefined that property access throws a `TypeError` before any request is
issued.  Otherwise one `POST` is made, Cloud body `{content:{raw:text}}`,
Server body `{text}`. -/
def addPullRequestComment (baseUrl workspace repoSlug : String) (prId : Option Int)
    (text : Option String) : Except String (List Request) :=
  match text with
  | none => .error "TypeError: Cannot read properties of undefined (reading length)"
  | some t =>
    let body := if isCloud baseUrl
      then JsonVal.obj [("content", JsonVal.obj [("raw", JsonVal.str t)])]
      else JsonVal.obj [("text", JsonVal.str t)]
    let path := if isCloud baseUrl
      then "/repositories/" ++ enc workspace ++ "/" ++ enc repoSlug ++
        "/pullrequests/" ++ jsShowNum prId ++ "/comments"
      else "/projects/" ++ enc workspace ++ "/repos/" ++ enc repoSlug ++
        "/pull-requests/" ++ jsShowNum prId ++ "/comments"
    .ok [⟨"POST", path, some body⟩]

/-! ## Structured errors (src/bitbucket.ts, `BitbucketError` and `request`) -/

/-- The fields of a `BitbucketError` relevant to classification; the opaque
`details` diagnostic payload is abstracted away. -/
structure ErrInfo where
  message : String
  statusCode : Option Nat
  errorType : String
  suggestion : String
  isRetryable : Bool
deriving DecidableEq, Repr

/-- The status/code → `BitbucketError` cascade in `BitbucketClient.request`.
`status` is the HTTP status when a response arrived, `code` the transport error
code otherwise, `emsg` the underlying error message, `respErrMsg` the
`responseData?.error?.message` used in the 400 suggestion. -/
def classifyRequestError (status : Option Nat) (code : Option String)
    (emsg : Option String) (respErrMsg : Option String) : ErrInfo :=
  if status == some 401 then
    ⟨"Authentication failed", some 401, "AUTHENTICATION_ERROR",
      "Check your email and app password/token. Ensure credentials are valid and have not expired.", false⟩
  else if status == some 403 then
    ⟨"Permission denied", some 403, "PERMISSION_ERROR",
      "Your credentials lack permission for this operation. Check repository access rights and workspace permissions.", false⟩
  else if status == some 404 then
    ⟨"Resource not found", some 404, "NOT_FOUND_ERROR",
      "Verify workspace name, repository slug, or resource ID. Check if the resource exists and is accessible.", false⟩
  else if status == some 400 then
    ⟨"Bad request", some 400, "VALIDATION_ERROR",
      "Invalid request parameters. " ++ jsOr respErrMsg "Check the request payload and parameters.", false⟩
  else if status == some 409 then
    ⟨"Conflict", some 409, "CONFLICT_ERROR",
      "Resource already exists or conflicts with existing data. Try a different name or check for duplicates.", false⟩
  else if status == some 429 then
    ⟨"Rate limit exceeded", some 429, "RATE_LIMIT_ERROR",
      "Too many requests. Wait before retrying. Check rate limit headers for reset time.", true⟩
  else if (match status with | some s => decide (500 ≤ s) | none => false) then
    ⟨"Bitbucket server error", status, "SERVER_ERROR",
      "Bitbucket service is experiencing issues. Retry after a short delay.", true⟩
  else if code == some "ENOTFOUND" || code == some "ECONNREFUSED" then
    ⟨"Network connection failed", none, "NETWORK_ERROR",
      "Check network connectivity and baseUrl configuration. Verify the Bitbucket server is reachable.", true⟩
  else if code == some "ETIMEDOUT" then
    ⟨"Request timeout", none, "TIMEOUT_ERROR",
      "Request took too long. Check network speed or try again.", true⟩
  else
    ⟨jsOr emsg "Unknown error occurred", status, "UNKNOWN_ERROR",
      "An unexpected error occurred. Check logs for details.", false⟩

/-- The separate error cascade inside the Cloud-dialect branch of
`getFileContent`, applied when the raw `fetch` response is not ok. -/
def classifyFileError (status : Nat) : ErrInfo :=
  if status == 404 then
    ⟨"File not found", some 404, "FILE_NOT_FOUND",
      "Verify the file path and commit hash are correct. File may not exist at this commit.", false⟩
  else if status == 401 then
    ⟨"Authentication failed for file content", some 401, "AUTHENTICATION_ERROR",
      "Check authentication credentials.", false⟩
  else
    ⟨"Failed to fetch file content: HTTP " ++ toString status, some status, "FILE_FETCH_ERROR",
      "Check file permissions and repository access.", decide (500 ≤ status)⟩

/-! ## Server-dialect file-content post-processing (src/bitbucket.ts `getFileContent`) -/

/-- `lines.map(l => l.text).join("\n")`: JS `join` renders an undefined
element as the empty string. -/
def joinTexts (ls : List (Option String)) : String :=
  String.intercalate "\n" (ls.map (fun t => t.getD ""))

/-- `response.lines?.map(l => l.text).join("\n") || ""`: the Server-dialect
result, given the optional `lines` array of the parsed JSON response, each
line carrying an optional `text` field. -/
def serverFileContent (lines : Option (List (Option String))) : String :=
  match lines with
  | none => ""
  | some ls => let s := joinTexts ls; if s == "" then "" else s

/-! ## Configuration resolver (src/config.ts `loadConfig`) -/

inductive AuthType where
  | basic
  | bearer
deriving DecidableEq, Repr

/-- The resolved `BitbucketConfig`.  Email and token are optional because the
JSON-file branch copies them without checking presence. -/
structure BitbucketConfig where
  baseUrl : String
  ATLASSIAN_USER_EMAIL : Option String
  ATLASSIAN_API_TOKEN : Option String
  authType : AuthType
  defaultDestinationBranch : String
deriving DecidableEq, Repr

/-- State of one of the three recognized JSON config files.  `invalid` covers a
missing `bitbucket.environments` object or unparsable JSON; `envs` carries the
fields of `bitbucket.environments` plus the top-level
`bitbucket.defaultDestinationBranch`. -/
inductive CfgFile where
  | absent
  | invalid
  | envs (siteUrl : Option String) (email : Option String) (token : Option String)
      (destBranch : Option String) (topLevelDestBranch : Option String)
deriving DecidableEq, Repr

/-- The ambient state read by `loadConfig`: the `.env` file presence, the
process environment variables, and the three candidate config files in lookup
order (`mcp.config.json`, `.mcp.config.json`, `.bitbucket.mcp.json`). -/
structure LoadState where
  dotEnvExists : Bool
  envEmail : Option String
  envToken : Option String
  envSiteUrl : Option String
  envDestBranch : Option String
  mcpConfig : CfgFile
  dotMcpConfig : CfgFile
  bitbucketMcp : CfgFile
deriving DecidableEq, Repr

/-- `authType = baseUrl.includes("api.bitbucket.org") ? "basic" : "bearer"`. -/
def authTypeFor (baseUrl : String) : AuthType :=
  if strIncludes baseUrl cloudMarker then .basic else .bearer

/-- `envUrl === "bitbucket" ? cloudBaseUrl : (envUrl || cloudBaseUrl)`. -/
def envBaseUrl (siteUrl : Option String) : String :=
  if siteUrl == some "bitbucket" then cloudBaseUrl else jsOr siteUrl cloudBaseUrl

/-- The configuration built from environment variables (both the `.env` branch
and the direct-environment branch construct it identically). -/
def configFromEnv (st : LoadState) : BitbucketConfig :=
  let baseUrl := envBaseUrl st.envSiteUrl
  { baseUrl
    ATLASSIAN_USER_EMAIL := st.envEmail
    ATLASSIAN_API_TOKEN := st.envToken
    authType := authTypeFor baseUrl
    defaultDestinationBranch := jsOr st.envDestBranch "main" }

/-- The `fromEnv` IIFE: first the `.env`-file branch, then the direct
environment-variable fallback, both guarded by truthiness of email and token. -/
def fromEnv (st : LoadState) : Option BitbucketConfig :=
  if st.dotEnvExists && jsTruthy st.envEmail && jsTruthy st.envToken then
    some (configFromEnv st)
  else if jsTruthy st.envToken && jsTruthy st.envEmail then
    some (configFromEnv st)
  else none

/-- The JSON-file branch for one candidate file.  A file whose
`ATLASSIAN_SITE_URL` is absent makes `baseUrl.includes` throw a `TypeError`,
which the surrounding `try` swallows, falling through to the next candidate. -/
def fileConfig : CfgFile → Option BitbucketConfig
  | .absent => none
  | .invalid => none
  | .envs siteUrl email token destBranch topLevelDestBranch =>
    match siteUrl with
    | none => none
    | some su =>
      let baseUrl := if su == "bitbucket" then cloudBaseUrl else su
      some { baseUrl
             ATLASSIAN_USER_EMAIL := email
             ATLASSIAN_API_TOKEN := token
             authType := authTypeFor baseUrl
             defaultDestinationBranch := jsOr destBranch (jsOr topLevelDestBranch "main") }

/-- The `for (const p of configPaths)` loop: the first file that yields a
configuration is returned. -/
def firstFileConfig (st : LoadState) : Option BitbucketConfig :=
  match fileConfig st.mcpConfig with
  | some c => some c
  | none =>
    match fileConfig st.dotMcpConfig with
    | some c => some c
    | none => fileConfig st.bitbucketMcp

/-- `loadConfig`: `fromEnv` is computed first, but the file loop returns
before it is consulted, so a successful JSON file wins; the environment
configuration is returned only when no file yields one, and otherwise the
missing-credentials error is thrown. -/
def loadConfig (st : LoadState) : Except String BitbucketConfig :=
  match firstFileConfig st with
  | some c => .ok c
  | none =>
    match fromEnv st with
    | some c => .ok c
    | none => .error "Missing credentials. Provide env vars ATLASSIAN_USER_EMAIL and ATLASSIAN_API_TOKEN or mcp.config.json with bitbucket.environments."

/-! ## Remote-descriptor parser (src/git.ts `parseBitbucketRemote`)

The two regular expressions are embedded by their (deterministic) matching
semantics:
  SSH   `^git@([^:]+):([^/]+)\/(.+?)(\.git)?$`  (case-insensitive)
  HTTPS `^https?:\/\/(?:[^@]+@)?([^\/]+)\/([^\/]+)\/(.+?)(?:\.git)?$`  (case-insensitive)
A negated class stops at the first occurrence of its excluded character; the
lazy `(.+?)` prefers the split that lets the optional `\.git` consume the
suffix; `.` does not match line terminators. -/

structure RemoteDescriptor where
  host : String
  workspace : String
  repoSlug : String
deriving DecidableEq, Repr

/-- Case-insensitive (ASCII) character comparison, for the `i` regex flag. -/
def lowerEq (a b : Char) : Bool := a.toLower == b.toLower

/-- Case-insensitive prefix test against a literal pattern. -/
def ciPrefix : List Char → List Char → Bool
  | [], _ => true
  | _ :: _, [] => false
  | p :: ps, c :: cs => lowerEq p c && ciPrefix ps cs

/-- JS `.` (no `s` flag): any character except a line terminator. -/
def dotOk (c : Char) : Bool :=
  !(c == Char.ofNat 10 || c == Char.ofNat 13 || c == Char.ofNat 0x2028 || c == Char.ofNat 0x2029)

/-- Split at the first occurrence of `sep`, requiring it to occur; the left
part is what a greedy negated class `[^sep]+`/`[^sep]*` followed by `sep`
captures. -/
def breakAtChar (sep : Char) : List Char → Option (List Char × List Char)
  | [] => none
  | c :: cs =>
    if c == sep then some ([], cs)
    else
      match breakAtChar sep cs with
      | some (a, b) => some (c :: a, b)
      | none => none

/-- Can `(\.git)?` consume the last four characters (case-insensitively),
leaving a nonempty stem? -/
def sshStrippable (cs : List Char) : Bool :=
  decide (5 ≤ cs.length) && ciPrefix ".git".data (cs.drop (cs.length - 4))

/-- `(.+?)(\.git)?$`: the lazy group takes the shortest prefix, so the
`.git`-consuming split is preferred when available. -/
def lazyDotGit (cs : List Char) : Option (List Char) :=
  if sshStrippable cs && (cs.take (cs.length - 4)).all dotOk then
    some (cs.take (cs.length - 4))
  else if !cs.isEmpty && cs.all dotOk then some cs
  else none

/-- JS case-sensitive `repo.endsWith(".git")`. -/
def endsWithDotGit (cs : List Char) : Bool :=
  decide (4 ≤ cs.length) && cs.drop (cs.length - 4) == ".git".data

/-- The SSH branch: literal `git@`, host up to the first `:`, workspace up to
the first `/`, the lazy-matched rest, then the explicit `endsWith(".git")`
strip. -/
def parseSsh (s : String) : Option RemoteDescriptor :=
  let cs := s.data
  if ciPrefix "git@".data cs then
    match breakAtChar ':' (cs.drop 4) with
    | none => none
    | some (host, rest2) =>
      if host.isEmpty then none
      else
        match breakAtChar '/' rest2 with
        | none => none
        | some (ws, rest3) =>
          if ws.isEmpty then none
          else
            match lazyDotGit rest3 with
            | none => none
            | some g3 =>
              let repo := if endsWithDotGit g3 then g3.take (g3.length - 4) else g3
              some ⟨String.mk host, String.mk ws, String.mk repo⟩
  else none

/-- The common tail `([^\/]+)\/([^\/]+)\/(.+?)(?:\.git)?$` of the HTTPS regex. -/
def parseHttpsTail (cs : List Char) : Option RemoteDescriptor :=
  match breakAtChar '/' cs with
  | none => none
  | some (host, r1) =>
    if host.isEmpty then none
    else
      match breakAtChar '/' r1 with
      | none => none
      | some (ws, r2) =>
        if ws.isEmpty then none
        else
          match lazyDotGit r2 with
          | none => none
          | some g3 => some ⟨String.mk host, String.mk ws, String.mk g3⟩

/-- The HTTPS branch: scheme, then the greedy optional `(?:[^@]+@)?` (tried
first, with fallback to skipping it when the rest of the pattern fails). -/
def parseHttps (s : String) : Option RemoteDescriptor :=
  let cs := s.data
  let afterScheme : Option (List Char) :=
    if ciPrefix "https://".data cs then some (cs.drop 8)
    else if ciPrefix "http://".data cs then some (cs.drop 7)
    else none
  match afterScheme with
  | none => none
  | some r =>
    let withUser : Option RemoteDescriptor :=
      match breakAtChar '@' r with
      | some (u, rest) => if u.isEmpty then none else parseHttpsTail rest
      | none => none
    match withUser with
    | some d => some d
    | none => parseHttpsTail r

/-- `parseBitbucketRemote`: SSH pattern first, then HTTPS, else the
unsupported-remote error. -/
def parseBitbucketRemote (remoteUrl : String) : Except String RemoteDescriptor :=
  match parseSsh remoteUrl with
  | some d => .ok d
  | none =>
    match parseHttps remoteUrl with
    | some d => .ok d
    | none => .error ("Unsupported Bitbucket remote URL: " ++ remoteUrl)

/-! ## Tool dispatch (src/cli.ts) -/

/-- The argument object of a tool invocation (fields relevant to
`pr_comment_add`). -/
structure ToolArgs where
  workspace : Option String
  repoSlug : Option String
  prId : Option Int
  text : Option String
deriving DecidableEq, Repr

/-- `getDefaultWorkspace`: `if (!w) throw new Error("workspace parameter is required")`. -/
def getDefaultWorkspace (a : ToolArgs) : Except String String :=
  if jsTruthy a.workspace then .ok (a.workspace.getD "")
  else .error "workspace parameter is required"

/-- `getDefaultRepoSlug`. -/
def getDefaultRepoSlug (a : ToolArgs) : Except String String :=
  if jsTruthy a.repoSlug then .ok (a.repoSlug.getD "")
  else .error "repoSlug parameter is required"

/-- The `pr_comment_add` handler: validates workspace and repoSlug through the
two getters, then passes `prId` and `text` to the client unchecked. -/
def prCommentAddHandler (baseUrl : String) (a : ToolArgs) : Except String (List Request) := do
  let w ← getDefaultWorkspace a
  let r ← getDefaultRepoSlug a
  addPullRequestComment baseUrl w r a.prId a.text

/-! ## Session entry point (src/cli.ts `CallToolRequestSchema` handler) -/

/-- The text block of a tool result; JSON serialization is abstracted as the
structured value being serialized. -/
inductive ToolText where
  | raw (s : String)
  | jsonText (v : JsonVal)

/-- The uniform tool-result envelope. -/
structure Envelope where
  content : ToolText
  isError : Bool

/-- What the looked-up handler did: returned a result, threw a
`BitbucketError`, or threw something else. -/
inductive HandlerOutcome where
  | success (content : ToolText) (isErrorFlag : Bool)
  | threwBitbucket (e : ErrInfo)
  | threwOther (msg : String)

/-- The serialized `errorInfo` object built for a caught `BitbucketError`
(an undefined `statusCode` key is omitted by `JSON.stringify`). -/
def structuredErrorInfo (e : ErrInfo) : JsonVal :=
  JsonVal.obj ([("error", JsonVal.str e.message), ("errorType", JsonVal.str e.errorType)] ++
    (match e.statusCode with | some n => [("statusCode", JsonVal.num n)] | none => []) ++
    [("suggestion", JsonVal.str e.suggestion), ("isRetryable", JsonVal.boolean e.isRetryable)])

/-- The invoke-tool request handler: look up by name, return a not-found
envelope for unregistered names, run the handler inside `try`, and convert
either kind of thrown error into a failure envelope.  Total: no exception
escapes the session boundary. -/
def callTool (registered : List String) (name : String) (outcome : HandlerOutcome) : Envelope :=
  if registered.contains name then
    match outcome with
    | .success c f => ⟨c, f⟩
    | .threwBitbucket e => ⟨.jsonText (structuredErrorInfo e), true⟩
    | .threwOther m => ⟨.raw m, true⟩
  else ⟨.raw ("Tool not found: " ++ name), true⟩

/-! ## Helper lemmas -/

/-- The second disjunct of `isCloud` is redundant: the fixed Cloud base URL
contains the marker, so dialect selection is exactly the containment test. -/
theorem isCloud_eq (baseUrl : String) : isCloud baseUrl = strIncludes baseUrl cloudMarker := by
  unfold isCloud
  by_cases h : baseUrl = cloudBaseUrl
  · subst h; decide
  · have hb : (baseUrl == cloudBaseUrl) = false := beq_eq_false_iff_ne.mpr h
    rw [hb, Bool.or_false]

theorem isCloud_false_of (baseUrl : String) (h : strIncludes baseUrl cloudMarker = false) :
    isCloud baseUrl = false := by rw [isCloud_eq, h]

/-! ## C1 / C8: single-request dialect routing -/

/-- C1: for every workspace and repo-slug string, `getRepo` issues exactly one
GET request, to `/repositories/{ws}/{rs}` (segments percent-encoded) when the
base URL contains the Cloud host marker `api.bitbucket.org`, and to
`/projects/{ws}/repos/{rs}` otherwise; the dialect test is a pure function of
the base URL fixed at construction (the constructor's extra
`baseUrl === cloudBaseUrl` disjunct is subsumed by the containment test), so it
is the same on every call. -/
theorem getRepo_dialect (baseUrl workspace repoSlug : String) :
    getRepo baseUrl workspace repoSlug =
      (if strIncludes baseUrl cloudMarker then
        [⟨"GET", "/repositories/" ++ encodeURIComponent workspace ++ "/" ++
            encodeURIComponent repoSlug, none⟩]
      else
        [⟨"GET", "/projects/" ++ encodeURIComponent workspace ++ "/repos/" ++
            encodeURIComponent repoSlug, none⟩]) := by
  unfold getRepo
  rw [isCloud_eq]
  rfl

/-- C8: for every source and destination branch, `compareBranches` issues one
GET request: on Cloud to `.../diff/{destination}..{source}` (destination before
source), on Server to `.../compare/diff?from={source}&to={destination}`, with
branch names percent-encoded in both dialects. -/
theorem compareBranches_dialect (baseUrl workspace repoSlug source destination : String) :
    compareBranches baseUrl workspace repoSlug source destination =
      (if strIncludes baseUrl cloudMarker then
        [⟨"GET", "/repositories/" ++ encodeURIComponent workspace ++ "/" ++
            encodeURIComponent repoSlug ++ "/diff/" ++ encodeURIComponent destination ++
            ".." ++ encodeURIComponent source, none⟩]
      else
        [⟨"GET", "/projects/" ++ encodeURIComponent workspace ++ "/repos/" ++
            encodeURIComponent repoSlug ++ "/compare/diff?from=" ++
            encodeURIComponent source ++ "&to=" ++ encodeURIComponent destination, none⟩]) := by
  unfold compareBranches
  rw [isCloud_eq]
  rfl

/-! ## C6: hard-coded `version: 0` on Server-dialect merge and update -/

/-- C6: on the Server dialect, `mergePullRequest` sends a single POST whose
body starts with `version: 0` (no read-before-write request is issued),
contains `message` exactly when a non-empty `options.message` is provided, and
is independent of `closeSourceBranch` and `mergeStrategy`; `updatePullRequest`
likewise always sends `version: 0` alongside the provided title/description
fields. -/
theorem server_merge_update_version_zero (baseUrl workspace repoSlug : String)
    (prId : Option Int) (options : MergeOptions) (updates : UpdateFields)
    (h : strIncludes baseUrl cloudMarker = false) :
    mergePullRequest baseUrl workspace repoSlug prId options =
      [⟨"POST", "/projects/" ++ encodeURIComponent workspace ++ "/repos/" ++
          encodeURIComponent repoSlug ++ "/pull-requests/" ++ jsShowNum prId ++ "/merge",
        some (JsonVal.obj (("version", JsonVal.num 0) :: optStrField "message" options.message))⟩] ∧
    (∀ csb ms, mergePullRequest baseUrl workspace repoSlug prId ⟨csb, ms, options.message⟩ =
      mergePullRequest baseUrl workspace repoSlug prId options) ∧
    updatePullRequest baseUrl workspace repoSlug prId updates =
      [⟨"PUT", "/projects/" ++ encodeURIComponent workspace ++ "/repos/" ++
          encodeURIComponent repoSlug ++ "/pull-requests/" ++ jsShowNum prId,
        some (JsonVal.obj (("version", JsonVal.num 0) :: optStrField "title" updates.title ++
          optStrField "description" updates.description))⟩] := by
  have hc : isCloud baseUrl = false := isCloud_false_of baseUrl h
  refine ⟨?_, ?_, ?_⟩
  · unfold mergePullRequest; rw [hc]; rfl
  · intro csb ms; unfold mergePullRequest; rw [hc]; rfl
  · unfold updatePullRequest; rw [hc]; rfl

/-- Witness for `server_merge_update_version_zero` at a concrete Server-like
base URL and fully-populated options. -/
theorem server_merge_update_version_zero_witness :
    strIncludes "https://git.example.com/rest/api/1.0" cloudMarker = false ∧
    mergePullRequest "https://git.example.com/rest/api/1.0" "PROJ" "repo" (some 7)
        ⟨some true, some "squash", some "done"⟩ =
      [⟨"POST", "/projects/PROJ/repos/repo/pull-requests/7/merge",
        some (JsonVal.obj [("version", JsonVal.num 0), ("message", JsonVal.str "done")])⟩] ∧
    updatePullRequest "https://git.example.com/rest/api/1.0" "PROJ" "repo" (some 7)
        ⟨some "New title", none⟩ =
      [⟨"PUT", "/projects/PROJ/repos/repo/pull-requests/7",
        some (JsonVal.obj [("version", JsonVal.num 0), ("title", JsonVal.str "New title")])⟩] := by
  have h := server_merge_update_version_zero "https://git.example.com/rest/api/1.0" "PROJ" "repo"
    (some 7) ⟨some true, some "squash", some "done"⟩ ⟨some "New title", none⟩ (by decide)
  exact ⟨by decide, by rw [h.1]; rfl, by rw [h.2.2]; rfl⟩

/-! ## C10: Server-dialect file-content post-processing -/

/-- C10: on the Server dialect, `getFileContent` returns the empty string when
the parsed response has no `lines` array or an empty one, and otherwise the
`text` field of each line joined with a single newline. -/
theorem serverFileContent_lines (ts : List String) :
    serverFileContent none = "" ∧
    serverFileContent (some []) = "" ∧
    serverFileContent (some (ts.map some)) = String.intercalate "\n" ts := by
  refine ⟨rfl, rfl, ?_⟩
  have hsome : serverFileContent (some (ts.map some)) =
      (if joinTexts (ts.map some) == "" then "" else joinTexts (ts.map some)) := rfl
  have hj : joinTexts (ts.map some) = String.intercalate "\n" ts := by
    unfold joinTexts
    rw [List.map_map,
      show ((fun t : Option String => t.getD "") ∘ some) = id from funext fun t => rfl,
      List.map_id]
  rw [hsome, hj]
  by_cases h : String.intercalate "\n" ts = ""
  · simp [h]
  · simp [h]

/-! ## C4: status-code → structured-error table (corrected) -/

/-- C4 counterexample: a 404 response on the Cloud-dialect file-content fetch
is classified by `getFileContent`'s own error branch as `FILE_NOT_FOUND`, not
`NOT_FOUND_ERROR` as the claim states (retryability is still `false`). -/
theorem fileContent404_not_notFoundError :
    (classifyFileError 404).errorType = "FILE_NOT_FOUND" ∧
    (classifyFileError 404).errorType ≠ "NOT_FOUND_ERROR" ∧
    (classifyFileError 404).isRetryable = false := by decide

/-- C4 amended: the status table
401→AUTHENTICATION_ERROR(false), 403→PERMISSION_ERROR(false),
404→NOT_FOUND_ERROR(false), 400→VALIDATION_ERROR(false),
409→CONFLICT_ERROR(false), 429→RATE_LIMIT_ERROR(true), ≥500→SERVER_ERROR(true),
anything else→UNKNOWN_ERROR(false) holds for every operation going through the
shared `request` helper; the Cloud-dialect file-content fetch alone uses its
own mapping 404→FILE_NOT_FOUND(false), 401→AUTHENTICATION_ERROR(false), any
other failure→FILE_FETCH_ERROR(retryable iff status ≥ 500). -/
theorem error_classification_table (s : Nat) (emsg respErrMsg : Option String) :
    (s = 401 → classifyRequestError (some s) none emsg respErrMsg =
      classifyRequestError (some 401) none emsg respErrMsg ∧
      (classifyRequestError (some 401) none emsg respErrMsg).errorType = "AUTHENTICATION_ERROR" ∧
      (classifyRequestError (some 401) none emsg respErrMsg).isRetryable = false) ∧
    (s = 403 → (classifyRequestError (some s) none emsg respErrMsg).errorType = "PERMISSION_ERROR" ∧
      (classifyRequestError (some s) none emsg respErrMsg).isRetryable = false) ∧
    (s = 404 → (classifyRequestError (some s) none emsg respErrMsg).errorType = "NOT_FOUND_ERROR" ∧
      (classifyRequestError (some s) none emsg respErrMsg).isRetryable = false) ∧
    (s = 400 → (classifyRequestError (some s) none emsg respErrMsg).errorType = "VALIDATION_ERROR" ∧
      (classifyRequestError (some s) none emsg respErrMsg).isRetryable = false) ∧
    (s = 409 → (classifyRequestError (some s) none emsg respErrMsg).errorType = "CONFLICT_ERROR" ∧
      (classifyRequestError (some s) none emsg respErrMsg).isRetryable = false) ∧
    (s = 429 → (classifyRequestError (some s) none emsg respErrMsg).errorType = "RATE_LIMIT_ERROR" ∧
      (classifyRequestError (some s) none emsg respErrMsg).isRetryable = true) ∧
    (500 ≤ s → (classifyRequestError (some s) none emsg respErrMsg).errorType = "SERVER_ERROR" ∧
      (classifyRequestError (some s) none emsg respErrMsg).isRetryable = true) ∧
    (s ∉ ([400, 401, 403, 404, 409, 429] : List Nat) → s < 500 →
      (classifyRequestError (some s) none emsg respErrMsg).errorType = "UNKNOWN_ERROR" ∧
      (classifyRequestError (some s) none emsg respErrMsg).isRetryable = false) ∧
    ((classifyFileError 404).errorType = "FILE_NOT_FOUND" ∧
      (classifyFileError 404).isRetryable = false) ∧
    ((classifyFileError 401).errorType = "AUTHENTICATION_ERROR" ∧
      (classifyFileError 401).isRetryable = false) ∧
    (s ≠ 404 → s ≠ 401 →
      (classifyFileError s).errorType = "FILE_FETCH_ERROR" ∧
      (classifyFileError s).isRetryable = decide (500 ≤ s)) := by
  have hne : ∀ k : Nat, s ≠ k → ((some s : Option Nat) == some k) = false := by
    intro k hk
    simp [hk]
  refine ⟨?_, ?_, ?_, ?_, ?_, ?_, ?_, ?_, ⟨rfl, rfl⟩, ⟨rfl, rfl⟩, ?_⟩
  · rintro rfl; exact ⟨rfl, rfl, rfl⟩
  · rintro rfl; exact ⟨rfl, rfl⟩
  · rintro rfl; exact ⟨rfl, rfl⟩
  · rintro rfl; exact ⟨rfl, rfl⟩
  · rintro rfl; exact ⟨rfl, rfl⟩
  · rintro rfl; exact ⟨rfl, rfl⟩
  · intro hs
    unfold classifyRequestError
    rw [hne 401 (by omega), hne 403 (by omega), hne 404 (by omega), hne 400 (by omega),
      hne 409 (by omega), hne 429 (by omega)]
    simp [hs]
  · intro hmem hlt
    have h401 : s ≠ 401 := fun h => hmem (by simp [h])
    have h403 : s ≠ 403 := fun h => hmem (by simp [h])
    have h404 : s ≠ 404 := fun h => hmem (by simp [h])
    have h400 : s ≠ 400 := fun h => hmem (by simp [h])
    have h409 : s ≠ 409 := fun h => hmem (by simp [h])
    have h429 : s ≠ 429 := fun h => hmem (by simp [h])
    unfold classifyRequestError
    rw [hne 401 h401, hne 403 h403, hne 404 h404, hne 400 h400, hne 409 h409, hne 429 h429]
    simp [Nat.not_le.mpr hlt]
  · intro h404 h401
    unfold classifyFileError
    have b404 : (s == 404) = false := by simp [h404]
    have b401 : (s == 401) = false := by simp [h401]
    rw [b404, b401]
    simp

/-- Witness for `error_classification_table`: status 503 is a server error and
retryable; status 418 falls to `UNKNOWN_ERROR` and is not retryable; a 503 on
the Cloud file fetch is a retryable `FILE_FETCH_ERROR`. -/
theorem error_classification_table_witness :
    (500 ≤ 503 ∧ (classifyRequestError (some 503) none none none).errorType = "SERVER_ERROR" ∧
      (classifyRequestError (some 503) none none none).isRetryable = true) ∧
    ((418 : Nat) ∉ ([400, 401, 403, 404, 409, 429] : List Nat) ∧ 418 < 500 ∧
      (classifyRequestError (some 418) none none none).errorType = "UNKNOWN_ERROR" ∧
      (classifyRequestError (some 418) none none none).isRetryable = false) ∧
    ((503 : Nat) ≠ 404 ∧ (503 : Nat) ≠ 401 ∧
      (classifyFileError 503).errorType = "FILE_FETCH_ERROR" ∧
      (classifyFileError 503).isRetryable = true) := by
  have h503 := (error_classification_table 503 none none).2.2.2.2.2.2.1 (by omega)
  have h418 := (error_classification_table 418 none none).2.2.2.2.2.2.2.1 (by decide) (by omega)
  have hf := (error_classification_table 503 none none).2.2.2.2.2.2.2.2.2.2
    (by omega) (by omega)
  refine ⟨⟨by omega, h503.1, h503.2⟩, ⟨by decide, by omega, h418.1, h418.2⟩,
    ⟨by omega, by omega, hf.1, by rw [hf.2]; decide⟩⟩

/-! ## C5: argument validation before the network call (corrected) -/

/-- C5 counterexample: `pr_comment_add` declares `prId` as required, yet
invoking its handler with `prId` missing (workspace, repoSlug and text all
present) does not fail validation: it issues one HTTP request whose path
carries the literal segment `undefined`. -/
theorem prCommentAdd_missing_prId_sends_request :
    prCommentAddHandler cloudBaseUrl ⟨some "ws", some "repo", none, some "hello"⟩ =
      .ok [⟨"POST", "/repositories/ws/repo/pullrequests/undefined/comments",
        some (JsonVal.obj [("content", JsonVal.obj [("raw", JsonVal.str "hello")])])⟩] := by
  rfl

/-- C5 amended (scoped to the `pr_comment_add` handler — the uniform per-tool
validation guarantee does not survive the counterexample): this handler
validates only `workspace` and `repoSlug`, each failing with its descriptive
error and no request; a missing `text` also aborts before any request is
issued, but through the `TypeError` raised by the `text.length` access in the
client method rather than argument validation; a missing `prId` is not
validated at all (see the counterexample).  An `Except.error` result models a
throw before the request list is produced, so each error case performs no
network call. -/
theorem prCommentAdd_validation (baseUrl : String) (a : ToolArgs) :
    (jsTruthy a.workspace = false →
      prCommentAddHandler baseUrl a = .error "workspace parameter is required") ∧
    (jsTruthy a.workspace = true → jsTruthy a.repoSlug = false →
      prCommentAddHandler baseUrl a = .error "repoSlug parameter is required") ∧
    (jsTruthy a.workspace = true → jsTruthy a.repoSlug = true → a.text = none →
      prCommentAddHandler baseUrl a =
        .error "TypeError: Cannot read properties of undefined (reading length)") := by
  refine ⟨?_, ?_, ?_⟩
  · intro hw
    unfold prCommentAddHandler getDefaultWorkspace
    rw [hw]
    rfl
  · intro hw hr
    unfold prCommentAddHandler getDefaultWorkspace getDefaultRepoSlug
    rw [hw, hr]
    rfl
  · intro hw hr ht
    unfold prCommentAddHandler getDefaultWorkspace getDefaultRepoSlug addPullRequestComment
    rw [hw, hr, ht]
    rfl

/-- Witness for `prCommentAdd_validation`: a concrete call with `text`
missing returns the TypeError failure and hence no request. -/
theorem prCommentAdd_validation_witness :
    jsTruthy (some "ws") = true ∧ jsTruthy (some "repo") = true ∧
    (ToolArgs.mk (some "ws") (some "repo") (some 5) none).text = none ∧
    prCommentAddHandler cloudBaseUrl ⟨some "ws", some "repo", some 5, none⟩ =
      .error "TypeError: Cannot read properties of undefined (reading length)" :=
  ⟨by decide, by decide, rfl,
    (prCommentAdd_validation cloudBaseUrl ⟨some "ws", some "repo", some 5, none⟩).2.2
      (by decide) (by decide) rfl⟩

/-! ## C9: the session boundary -/

/-- C9: the invoke-tool boundary always returns a completed envelope: an
unregistered tool name yields a failure envelope naming the unresolved tool; a
handler throwing a structured `BitbucketError` yields a failure envelope
carrying its message/kind/status/suggestion/retryability fields; any other
thrown value yields a failure envelope with its message; a returned result
passes through unchanged.  `callTool` is a total function, so no exception
escapes the session boundary. -/
theorem callTool_boundary (registered : List String) (name : String) (outcome : HandlerOutcome) :
    (registered.contains name = false →
      callTool registered name outcome = ⟨.raw ("Tool not found: " ++ name), true⟩) ∧
    (registered.contains name = true →
      (∀ e, outcome = .threwBitbucket e →
        callTool registered name outcome = ⟨.jsonText (structuredErrorInfo e), true⟩) ∧
      (∀ m, outcome = .threwOther m →
        callTool registered name outcome = ⟨.raw m, true⟩) ∧
      (∀ c f, outcome = .success c f → callTool registered name outcome = ⟨c, f⟩)) := by
  refine ⟨?_, ?_⟩
  · intro hn
    unfold callTool
    rw [hn]
    rfl
  · intro hn
    refine ⟨?_, ?_, ?_⟩
    · rintro e rfl
      unfold callTool
      rw [hn]
      rfl
    · rintro m rfl
      unfold callTool
      rw [hn]
      rfl
    · rintro c f rfl
      unfold callTool
      rw [hn]
      rfl

/-- Witness for `callTool_boundary`: invoking the unregistered name
`no_such_tool` against the registered tool list returns the not-found failure
envelope. -/
theorem callTool_boundary_witness :
    (["repo_info", "pr_list", "pr_comment_add"].contains "no_such_tool") = false ∧
    callTool ["repo_info", "pr_list", "pr_comment_add"] "no_such_tool"
        (.threwOther "unreached") =
      ⟨.raw "Tool not found: no_such_tool", true⟩ :=
  ⟨by decide, by
    rw [(callTool_boundary ["repo_info", "pr_list", "pr_comment_add"] "no_such_tool"
      (.threwOther "unreached")).1 (by decide)]
    rfl⟩

/-! ## C2: configuration precedence (corrected) -/

/-- Working-directory state with a `.env` file, both credential environment
variables set, and a valid `mcp.config.json` present. -/
def c2State : LoadState :=
  { dotEnvExists := true
    envEmail := some "env@example.com"
    envToken := some "envtoken"
    envSiteUrl := none
    envDestBranch := none
    mcpConfig := .envs (some "https://server.example.com") (some "json@example.com")
      (some "jsontoken") none none
    dotMcpConfig := .absent
    bitbucketMcp := .absent }

/-- C2 counterexample: with a `.env` file present and both credential
environment variables set, a valid JSON configuration file still wins —
`loadConfig` returns the file's values, not the environment-derived
configuration, because the file loop returns before `fromEnv` is consulted. -/
theorem loadConfig_json_beats_env :
    c2State.dotEnvExists = true ∧
    jsTruthy c2State.envEmail = true ∧
    jsTruthy c2State.envToken = true ∧
    loadConfig c2State = .ok
      { baseUrl := "https://server.example.com"
        ATLASSIAN_USER_EMAIL := some "json@example.com"
        ATLASSIAN_API_TOKEN := some "jsontoken"
        authType := .bearer
        defaultDestinationBranch := "main" } ∧
    configFromEnv c2State ≠
      { baseUrl := "https://server.example.com"
        ATLASSIAN_USER_EMAIL := some "json@example.com"
        ATLASSIAN_API_TOKEN := some "jsontoken"
        authType := .bearer
        defaultDestinationBranch := "main" } :=
  ⟨rfl, rfl, rfl, rfl, by decide⟩

/-- C2 amended: when a `.env` file exists and both credential environment
variables are set, `loadConfig` succeeds, but the JSON configuration file
takes precedence: the result is the first file-derived configuration when one
of the three recognized files yields one, and the environment-derived
configuration only otherwise. -/
theorem loadConfig_file_precedence (st : LoadState)
    (hdot : st.dotEnvExists = true)
    (he : jsTruthy st.envEmail = true)
    (ht : jsTruthy st.envToken = true) :
    loadConfig st = .ok ((firstFileConfig st).getD (configFromEnv st)) := by
  unfold loadConfig
  cases hf : firstFileConfig st with
  | some c => rfl
  | none =>
    unfold fromEnv
    rw [hdot, he, ht]
    rfl

/-- Witness for `loadConfig_file_precedence` at the concrete state
`c2State`. -/
theorem loadConfig_file_precedence_witness :
    c2State.dotEnvExists = true ∧
    jsTruthy c2State.envEmail = true ∧
    jsTruthy c2State.envToken = true ∧
    loadConfig c2State = .ok ((firstFileConfig c2State).getD (configFromEnv c2State)) :=
  ⟨rfl, by decide, by decide, loadConfig_file_precedence c2State rfl (by decide) (by decide)⟩

/-! ## C7: site-URL mapping and auth scheme (corrected) -/

/-- Working-directory state whose `ATLASSIAN_SITE_URL` is a full URL (not the
literal `bitbucket`) that happens to contain the Cloud host marker; no JSON
config file and no explicit override of anything. -/
def c7State : LoadState :=
  { dotEnvExists := true
    envEmail := some "user@example.com"
    envToken := some "token123"
    envSiteUrl := some "https://api.bitbucket.org/2.0"
    envDestBranch := none
    mcpConfig := .absent
    dotMcpConfig := .absent
    bitbucketMcp := .absent }

/-- C7 counterexample: for the non-`bitbucket`, non-empty site URL
`https://api.bitbucket.org/2.0` (and nothing overriding anything), `loadConfig`
derives `authType = basic`, not `bearer` as the claim states: the auth scheme
is decided by marker containment, not by the literal `bitbucket` token. -/
theorem siteUrl_verbatim_can_give_basic :
    c7State.envSiteUrl = some "https://api.bitbucket.org/2.0" ∧
    ("https://api.bitbucket.org/2.0" : String) ≠ "bitbucket" ∧
    ("https://api.bitbucket.org/2.0" : String) ≠ "" ∧
    loadConfig c7State = .ok
      { baseUrl := "https://api.bitbucket.org/2.0"
        ATLASSIAN_USER_EMAIL := some "user@example.com"
        ATLASSIAN_API_TOKEN := some "token123"
        authType := .basic
        defaultDestinationBranch := "main" } ∧
    AuthType.basic ≠ AuthType.bearer :=
  ⟨rfl, by decide, by decide, rfl, by decide⟩

/-- C7 amended: with no JSON file yielding a configuration and both credential
variables set, `ATLASSIAN_SITE_URL = "bitbucket"` maps to exactly the Cloud
base URL with `authType = basic`; any other non-empty value becomes `baseUrl`
verbatim, with `authType = basic` iff that value contains the Cloud host
marker `api.bitbucket.org` and `bearer` otherwise (there is no explicit
auth-scheme override input in `loadConfig`). -/
theorem loadConfig_siteUrl_mapping (st : LoadState)
    (hfile : firstFileConfig st = none)
    (he : jsTruthy st.envEmail = true)
    (ht : jsTruthy st.envToken = true) :
    (st.envSiteUrl = some "bitbucket" →
      loadConfig st = .ok
        { baseUrl := cloudBaseUrl
          ATLASSIAN_USER_EMAIL := st.envEmail
          ATLASSIAN_API_TOKEN := st.envToken
          authType := .basic
          defaultDestinationBranch := jsOr st.envDestBranch "main" }) ∧
    (∀ u : String, st.envSiteUrl = some u → u ≠ "bitbucket" → u ≠ "" →
      loadConfig st = .ok
        { baseUrl := u
          ATLASSIAN_USER_EMAIL := st.envEmail
          ATLASSIAN_API_TOKEN := st.envToken
          authType := if strIncludes u cloudMarker then .basic else .bearer
          defaultDestinationBranch := jsOr st.envDestBranch "main" }) := by
  have hload : loadConfig st = .ok (configFromEnv st) := by
    unfold loadConfig
    rw [hfile]
    unfold fromEnv
    cases hdot : st.dotEnvExists
    · rw [he, ht]; rfl
    · rw [he, ht]; rfl
  refine ⟨?_, ?_⟩
  · intro hsite
    rw [hload]
    unfold configFromEnv envBaseUrl
    rw [hsite]
    have : authTypeFor cloudBaseUrl = .basic := by decide
    simp [this]
  · intro u hsite hbit hne
    rw [hload]
    unfold configFromEnv envBaseUrl
    rw [hsite]
    have hb : ((some u : Option String) == some "bitbucket") = false := by
      simp [hbit]
    rw [hb]
    have hjs : jsOr (some u) cloudBaseUrl = u := by
      simp [jsOr, hne]
    simp only [Bool.false_eq_true, if_false, hjs]
    rfl

/-- Witness for `loadConfig_siteUrl_mapping`: a Server-like site URL is used
verbatim and yields `bearer`. -/
theorem loadConfig_siteUrl_mapping_witness :
    firstFileConfig
        ⟨false, some "dev@example.com", some "tok", some "https://git.mycorp.com", none,
          .absent, .absent, .absent⟩ = none ∧
    jsTruthy (some "dev@example.com") = true ∧
    jsTruthy (some "tok") = true ∧
    ("https://git.mycorp.com" : String) ≠ "bitbucket" ∧
    ("https://git.mycorp.com" : String) ≠ "" ∧
    loadConfig ⟨false, some "dev@example.com", some "tok", some "https://git.mycorp.com", none,
        .absent, .absent, .absent⟩ =
      .ok { baseUrl := "https://git.mycorp.com"
            ATLASSIAN_USER_EMAIL := some "dev@example.com"
            ATLASSIAN_API_TOKEN := some "tok"
            authType := .bearer
            defaultDestinationBranch := "main" } := by
  refine ⟨rfl, by decide, by decide, by decide, by decide, ?_⟩
  rw [(loadConfig_siteUrl_mapping
    ⟨false, some "dev@example.com", some "tok", some "https://git.mycorp.com", none,
      .absent, .absent, .absent⟩ rfl (by decide) (by decide)).2
    "https://git.mycorp.com" rfl (by decide) (by decide)]
  rfl

/-! ## Lemmas about the regex-matching primitives (src/git.ts) -/

theorem strDataAppend (s t : String) : (s ++ t).data = s.data ++ t.data := rfl

theorem isEmpty_false_of_ne {l : List Char} (h : l ≠ []) : l.isEmpty = false := by
  cases l with
  | nil => exact absurd rfl h
  | cons a as => rfl

theorem breakAtChar_append (sep : Char) (a b : List Char) (ha : sep ∉ a) :
    breakAtChar sep (a ++ sep :: b) = some (a, b) := by
  induction a with
  | nil => simp [breakAtChar]
  | cons c cs ih =>
    have hc : (c == sep) = false := by
      simp only [beq_eq_false_iff_ne]
      intro h
      exact ha (h ▸ List.mem_cons_self c cs)
    have ihh := ih (fun h => ha (List.mem_cons_of_mem c h))
    simp [breakAtChar, hc, ihh]

theorem breakAtChar_not_mem (sep : Char) (l : List Char) (h : sep ∉ l) :
    breakAtChar sep l = none := by
  induction l with
  | nil => rfl
  | cons c cs ih =>
    have hc : (c == sep) = false := by
      simp only [beq_eq_false_iff_ne]
      intro hq
      exact h (hq ▸ List.mem_cons_self c cs)
    have ihh := ih (fun hm => h (List.mem_cons_of_mem c hm))
    simp [breakAtChar, hc, ihh]

theorem lazyDotGit_plain (cs : List Char) (hne : cs ≠ [])
    (hdot : cs.all dotOk = true) (hstrip : sshStrippable cs = false) :
    lazyDotGit cs = some cs := by
  unfold lazyDotGit
  rw [hstrip, isEmpty_false_of_ne hne, hdot]
  rfl

theorem lazyDotGit_strip (cs : List Char) (hne : cs ≠ []) (hdot : cs.all dotOk = true) :
    lazyDotGit (cs ++ ".git".data) = some cs := by
  have hpos : 1 ≤ cs.length := by
    cases cs with
    | nil => exact absurd rfl hne
    | cons c cs' => simp
  have h4 : ".git".data.length = 4 := rfl
  have hlen : (cs ++ ".git".data).length = cs.length + 4 := by
    rw [List.length_append, h4]
  have hsub : (cs ++ ".git".data).length - 4 = cs.length := by omega
  have hdrop : (cs ++ ".git".data).drop ((cs ++ ".git".data).length - 4) = ".git".data := by
    rw [hsub]
    exact List.drop_left cs ".git".data
  have htake : (cs ++ ".git".data).take ((cs ++ ".git".data).length - 4) = cs := by
    rw [hsub]
    exact List.take_left cs ".git".data
  have hstrip : sshStrippable (cs ++ ".git".data) = true := by
    unfold sshStrippable
    rw [hdrop]
    have h5 : decide (5 ≤ (cs ++ ".git".data).length) = true := by
      rw [hlen]
      simpa using by omega
    rw [h5]
    decide
  unfold lazyDotGit
  rw [hstrip, htake, hdot]
  rfl

theorem ciPrefix_git (l : List Char) :
    ciPrefix ['g', 'i', 't', '@'] ('g' :: 'i' :: 't' :: '@' :: l) = true := rfl

theorem ciPrefix_https (l : List Char) :
    ciPrefix ['h', 't', 't', 'p', 's', ':', '/', '/']
      ('h' :: 't' :: 't' :: 'p' :: 's' :: ':' :: '/' :: '/' :: l) = true := rfl

theorem parseSsh_no_git_marker (s : String) (h : ciPrefix "git@".data s.data = false) :
    parseSsh s = none := by
  simp only [parseSsh, h, Bool.false_eq_true, if_false]

theorem parseSsh_shape (host ws rest : String) (g3 slug : List Char)
    (hhne : host.data ≠ []) (hhc : ':' ∉ host.data)
    (hwne : ws.data ≠ []) (hws : '/' ∉ ws.data)
    (hlazy : lazyDotGit rest.data = some g3)
    (hslug : (if endsWithDotGit g3 then g3.take (g3.length - 4) else g3) = slug) :
    parseSsh ("git@" ++ host ++ ":" ++ ws ++ "/" ++ rest) =
      some ⟨host, ws, String.mk slug⟩ := by
  have hgit : "git@".data = ['g', 'i', 't', '@'] := rfl
  have hcolon : ":".data = [':'] := rfl
  have hslash : "/".data = ['/'] := rfl
  have hdata : ("git@" ++ host ++ ":" ++ ws ++ "/" ++ rest).data =
      'g' :: 'i' :: 't' :: '@' :: (host.data ++ ':' :: (ws.data ++ '/' :: rest.data)) := by
    simp [strDataAppend, hgit, hcolon, hslash]
  simp only [parseSsh, hdata, hgit, ciPrefix_git, if_true, List.drop_succ_cons, List.drop_zero,
    breakAtChar_append ':' host.data (ws.data ++ '/' :: rest.data) hhc,
    isEmpty_false_of_ne hhne,
    breakAtChar_append '/' ws.data rest.data hws,
    isEmpty_false_of_ne hwne, hlazy, hslug, Bool.false_eq_true, if_false]

theorem parseHttpsTail_shape (host ws rest : String) (g3 : List Char)
    (hhne : host.data ≠ []) (hh : '/' ∉ host.data)
    (hwne : ws.data ≠ []) (hws : '/' ∉ ws.data)
    (hlazy : lazyDotGit rest.data = some g3) :
    parseHttpsTail (host.data ++ '/' :: (ws.data ++ '/' :: rest.data)) =
      some ⟨host, ws, String.mk g3⟩ := by
  simp only [parseHttpsTail,
    breakAtChar_append '/' host.data (ws.data ++ '/' :: rest.data) hh,
    isEmpty_false_of_ne hhne,
    breakAtChar_append '/' ws.data rest.data hws,
    isEmpty_false_of_ne hwne, hlazy, Bool.false_eq_true, if_false]

theorem parseHttps_noUser (host ws rest : String) (g3 : List Char)
    (hhne : host.data ≠ []) (hh : '/' ∉ host.data) (hah : '@' ∉ host.data)
    (hwne : ws.data ≠ []) (hws : '/' ∉ ws.data) (haw : '@' ∉ ws.data)
    (har : '@' ∉ rest.data)
    (hlazy : lazyDotGit rest.data = some g3) :
    parseHttps ("https://" ++ host ++ "/" ++ ws ++ "/" ++ rest) =
      some ⟨host, ws, String.mk g3⟩ := by
  have hsch : "https://".data = ['h', 't', 't', 'p', 's', ':', '/', '/'] := rfl
  have hslash : "/".data = ['/'] := rfl
  have hdata : ("https://" ++ host ++ "/" ++ ws ++ "/" ++ rest).data =
      'h' :: 't' :: 't' :: 'p' :: 's' :: ':' :: '/' :: '/' ::
        (host.data ++ '/' :: (ws.data ++ '/' :: rest.data)) := by
    simp [strDataAppend, hsch, hslash]
  have hnoat : '@' ∉ host.data ++ '/' :: (ws.data ++ '/' :: rest.data) := by
    simp only [List.mem_append, List.mem_cons]
    push_neg
    exact ⟨hah, by decide, haw, by decide, har⟩
  simp only [parseHttps, hdata, hsch, ciPrefix_https, if_true, List.drop_succ_cons,
    List.drop_zero, breakAtChar_not_mem '@' _ hnoat,
    parseHttpsTail_shape host ws rest g3 hhne hh hwne hws hlazy]

theorem parseHttps_withUser (user host ws rest : String) (g3 : List Char)
    (hune : user.data ≠ []) (hua : '@' ∉ user.data)
    (hhne : host.data ≠ []) (hh : '/' ∉ host.data)
    (hwne : ws.data ≠ []) (hws : '/' ∉ ws.data)
    (hlazy : lazyDotGit rest.data = some g3) :
    parseHttps ("https://" ++ user ++ "@" ++ host ++ "/" ++ ws ++ "/" ++ rest) =
      some ⟨host, ws, String.mk g3⟩ := by
  have hsch : "https://".data = ['h', 't', 't', 'p', 's', ':', '/', '/'] := rfl
  have hat : "@".data = ['@'] := rfl
  have hslash : "/".data = ['/'] := rfl
  have hdata : ("https://" ++ user ++ "@" ++ host ++ "/" ++ ws ++ "/" ++ rest).data =
      'h' :: 't' :: 't' :: 'p' :: 's' :: ':' :: '/' :: '/' ::
        (user.data ++ '@' :: (host.data ++ '/' :: (ws.data ++ '/' :: rest.data))) := by
    simp [strDataAppend, hsch, hat, hslash]
  simp only [parseHttps, hdata, hsch, ciPrefix_https, if_true, List.drop_succ_cons,
    List.drop_zero,
    breakAtChar_append '@' user.data (host.data ++ '/' :: (ws.data ++ '/' :: rest.data)) hua,
    isEmpty_false_of_ne hune,
    parseHttpsTail_shape host ws rest g3 hhne hh hwne hws hlazy,
    Bool.false_eq_true, if_false]


/-! ## C3: remote-URL parsing (corrected) -/

/-- C3 counterexample: an SSH-shaped remote whose user token is `alice`
rather than the literal `git` is rejected with the unsupported-remote error —
the SSH pattern anchors on `git@`, not on an arbitrary user token. -/
theorem nonGitUser_ssh_rejected :
    parseBitbucketRemote "alice@bitbucket.org:myteam/my-repo.git" =
      .error "Unsupported Bitbucket remote URL: alice@bitbucket.org:myteam/my-repo.git" := by
  rfl

/-- C3 amended: `parseBitbucketRemote` recovers the exact
{host, workspace, repoSlug} triple, with a trailing `.git` stripped when
present, for SSH-shaped remotes whose user token is the literal `git`
(case-insensitively) — not for an arbitrary user token — and for HTTPS-shaped
remotes with or without an embedded user; a string matching neither pattern
raises the unsupported-remote error.  The six positive conjuncts cover
SSH/HTTPS × user × `.git`-suffix; side conditions pin the segment alphabets
the regexes require (host free of its separator, workspace free of `/`,
tail free of line terminators). -/
theorem parseBitbucketRemote_shapes :
    (∀ host ws rest : String,
      host.data ≠ [] → ':' ∉ host.data →
      ws.data ≠ [] → '/' ∉ ws.data →
      rest.data ≠ [] → rest.data.all dotOk = true →
      sshStrippable rest.data = false → endsWithDotGit rest.data = false →
      parseBitbucketRemote ("git@" ++ host ++ ":" ++ ws ++ "/" ++ rest) =
        .ok ⟨host, ws, rest⟩) ∧
    (∀ host ws rest : String,
      host.data ≠ [] → ':' ∉ host.data →
      ws.data ≠ [] → '/' ∉ ws.data →
      rest.data ≠ [] → rest.data.all dotOk = true → endsWithDotGit rest.data = false →
      parseBitbucketRemote ("git@" ++ host ++ ":" ++ ws ++ "/" ++ (rest ++ ".git")) =
        .ok ⟨host, ws, rest⟩) ∧
    (∀ host ws rest : String,
      host.data ≠ [] → '/' ∉ host.data → '@' ∉ host.data →
      ws.data ≠ [] → '/' ∉ ws.data → '@' ∉ ws.data →
      rest.data ≠ [] → rest.data.all dotOk = true → '@' ∉ rest.data →
      sshStrippable rest.data = false →
      parseBitbucketRemote ("https://" ++ host ++ "/" ++ ws ++ "/" ++ rest) =
        .ok ⟨host, ws, rest⟩) ∧
    (∀ host ws rest : String,
      host.data ≠ [] → '/' ∉ host.data → '@' ∉ host.data →
      ws.data ≠ [] → '/' ∉ ws.data → '@' ∉ ws.data →
      rest.data ≠ [] → rest.data.all dotOk = true → '@' ∉ rest.data →
      parseBitbucketRemote ("https://" ++ host ++ "/" ++ ws ++ "/" ++ (rest ++ ".git")) =
        .ok ⟨host, ws, rest⟩) ∧
    (∀ user host ws rest : String,
      user.data ≠ [] → '@' ∉ user.data →
      host.data ≠ [] → '/' ∉ host.data →
      ws.data ≠ [] → '/' ∉ ws.data →
      rest.data ≠ [] → rest.data.all dotOk = true →
      sshStrippable rest.data = false →
      parseBitbucketRemote ("https://" ++ user ++ "@" ++ host ++ "/" ++ ws ++ "/" ++ rest) =
        .ok ⟨host, ws, rest⟩) ∧
    (∀ user host ws rest : String,
      user.data ≠ [] → '@' ∉ user.data →
      host.data ≠ [] → '/' ∉ host.data →
      ws.data ≠ [] → '/' ∉ ws.data →
      rest.data ≠ [] → rest.data.all dotOk = true →
      parseBitbucketRemote
          ("https://" ++ user ++ "@" ++ host ++ "/" ++ ws ++ "/" ++ (rest ++ ".git")) =
        .ok ⟨host, ws, rest⟩) ∧
    (∀ s : String, parseSsh s = none → parseHttps s = none →
      parseBitbucketRemote s = .error ("Unsupported Bitbucket remote URL: " ++ s)) := by
  refine ⟨?_, ?_, ?_, ?_, ?_, ?_, ?_⟩
  · intro host ws rest hhne hhc hwne hws hrne hdot hstrip hend
    unfold parseBitbucketRemote
    rw [parseSsh_shape host ws rest rest.data rest.data hhne hhc hwne hws
      (lazyDotGit_plain rest.data hrne hdot hstrip) (by rw [hend]; rfl)]
  · intro host ws rest hhne hhc hwne hws hrne hdot hend
    unfold parseBitbucketRemote
    rw [parseSsh_shape host ws (rest ++ ".git") rest.data rest.data hhne hhc hwne hws
      (lazyDotGit_strip rest.data hrne hdot) (by rw [hend]; rfl)]
  · intro host ws rest hhne hh hah hwne hws haw hrne hdot har hstrip
    unfold parseBitbucketRemote
    rw [parseSsh_no_git_marker ("https://" ++ host ++ "/" ++ ws ++ "/" ++ rest) rfl,
      parseHttps_noUser host ws rest rest.data hhne hh hah hwne hws haw har
        (lazyDotGit_plain rest.data hrne hdot hstrip)]
  · intro host ws rest hhne hh hah hwne hws haw hrne hdot har
    have harg : '@' ∉ (rest ++ ".git").data := by
      have : (rest ++ ".git").data = rest.data ++ ".git".data := rfl
      rw [this]
      simp only [List.mem_append]
      push_neg
      exact ⟨har, by decide⟩
    unfold parseBitbucketRemote
    rw [parseSsh_no_git_marker ("https://" ++ host ++ "/" ++ ws ++ "/" ++ (rest ++ ".git")) rfl,
      parseHttps_noUser host ws (rest ++ ".git") rest.data hhne hh hah hwne hws haw harg
        (lazyDotGit_strip rest.data hrne hdot)]
  · intro user host ws rest hune hua hhne hh hwne hws hrne hdot hstrip
    unfold parseBitbucketRemote
    rw [parseSsh_no_git_marker
        ("https://" ++ user ++ "@" ++ host ++ "/" ++ ws ++ "/" ++ rest) rfl,
      parseHttps_withUser user host ws rest rest.data hune hua hhne hh hwne hws
        (lazyDotGit_plain rest.data hrne hdot hstrip)]
  · intro user host ws rest hune hua hhne hh hwne hws hrne hdot
    unfold parseBitbucketRemote
    rw [parseSsh_no_git_marker
        ("https://" ++ user ++ "@" ++ host ++ "/" ++ ws ++ "/" ++ (rest ++ ".git")) rfl,
      parseHttps_withUser user host ws (rest ++ ".git") rest.data hune hua hhne hh hwne hws
        (lazyDotGit_strip rest.data hrne hdot)]
  · intro s h1 h2
    unfold parseBitbucketRemote
    rw [h1, h2]

/-- Witness for `parseBitbucketRemote_shapes` at the canonical example
`git@bitbucket.org:myteam/my-repo.git`. -/
theorem parseBitbucketRemote_shapes_witness :
    ("bitbucket.org" : String).data ≠ [] ∧ ':' ∉ ("bitbucket.org" : String).data ∧
    ("myteam" : String).data ≠ [] ∧ '/' ∉ ("myteam" : String).data ∧
    ("my-repo" : String).data ≠ [] ∧ ("my-repo" : String).data.all dotOk = true ∧
    endsWithDotGit ("my-repo" : String).data = false ∧
    parseBitbucketRemote ("git@" ++ "bitbucket.org" ++ ":" ++ "myteam" ++ "/" ++
        ("my-repo" ++ ".git")) =
      .ok ⟨"bitbucket.org", "myteam", "my-repo"⟩ := by
  refine ⟨by decide, by decide, by decide, by decide, by decide, by decide, by decide, ?_⟩
  exact parseBitbucketRemote_shapes.2.1 "bitbucket.org" "myteam" "my-repo"
    (by decide) (by decide) (by decide) (by decide) (by decide) (by decide) (by decide)


end BitbucketMCP
